import Mathlib

/-!
Verification development for the proto multi-tool version manager.

The development shallowly embeds the relevant parts of the code base:
the pin command (`src/crates/cli/src/commands/pin.rs`), the plugin
listing command (`src/crates/cli/src/commands/plugin/list.rs`) and the
WASM test wrapper (`src/crates/pdk-test-utils/src/wrapper.rs`), together
with the core facilities they call into (version specs, the resolver,
the config store, the manifest store, the path translator and the plugin
invocation layer), which are modelled from the specification where their
code is not part of the studied sources.
-/

namespace Proto

/-- Semantic version `major.minor.patch`, embedding the concrete
`Version` values stored in a tool manifest (pre-release and build tags
are not exercised by the code under study). -/
structure SemVer where
  major : Nat
  minor : Nat
  patch : Nat
deriving DecidableEq, Repr

/-- Lexicographic key realising the total order on versions: compare the
major component first, then the minor, then the patch. -/
def SemVer.key (v : SemVer) : Lex (Nat × Lex (Nat × Nat)) :=
  toLex (v.major, toLex (v.minor, v.patch))

instance : LinearOrder SemVer :=
  LinearOrder.lift' SemVer.key (by
    intro a b h
    cases a; cases b
    simp [SemVer.key, Prod.ext_iff] at h
    simp_all)

instance : Std.Antisymm (fun a b : SemVer => a ≤ b) where
  antisymm h h2 := le_antisymm h h2

/-- `Version::to_string`: the canonical `major.minor.patch` rendering. -/
def SemVer.render (v : SemVer) : String :=
  toString v.major ++ "." ++ toString v.minor ++ "." ++ toString v.patch

/-- A partially specified semantic range: `"18"` constrains only the
major component, `"18.19"` also fixes the minor.  Embeds the range shape
used by partial version requests (spec 4.3: a partial version requires
resolution). -/
structure VersionReq where
  major : Nat
  minor : Option Nat
  patch : Option Nat
deriving DecidableEq, Repr

/-- Whether a concrete version satisfies a partial range: every supplied
component must agree. -/
def VersionReq.matches (r : VersionReq) (v : SemVer) : Bool :=
  v.major == r.major
    && (match r.minor with | none => true | some m => v.minor == m)
    && (match r.patch with | none => true | some q => v.patch == q)

/-- `UnresolvedVersionSpec`: an alias name, a semantic range / partial
version, the "latest" sentinel, or an exact concrete version (spec 3:
the Unresolved side of the version spec sum type). -/
inductive UnresolvedVersionSpec where
  | Alias : String → UnresolvedVersionSpec
  | Req : VersionReq → UnresolvedVersionSpec
  | Latest : UnresolvedVersionSpec
  | Version : SemVer → UnresolvedVersionSpec
deriving DecidableEq, Repr

/-- `to_unresolved_spec` on a resolved version: the lossless conversion
from Resolved to Unresolved, an exact re-render (spec 3). -/
def SemVer.toUnresolvedSpec (v : SemVer) : UnresolvedVersionSpec :=
  UnresolvedVersionSpec.Version v

/-- Resolution failures (spec 4.4). -/
inductive ResolveError where
  | AliasCycle
  | VersionNotFound
deriving DecidableEq, Repr

/-- Highest version in `l` satisfying the range `r`, if any candidate
exists. -/
def maxSatisfying (l : List SemVer) (r : VersionReq) : Option SemVer :=
  (l.filter (fun v => r.matches v)).max?

/-- Modelled from the spec: the Version Resolver (spec 4.4), whose code
is not among the studied sources.  An alias key is substituted by its
target and resolution restarts (the fuel argument bounds alias chains;
exhausting it reports `AliasCycle`); a range selects the highest
installed version satisfying it, falling back to the highest satisfying
remote version; the "latest" sentinel selects the highest version of
whichever source is available; an exact version resolves to itself;
otherwise `VersionNotFound`. -/
def resolveWith (aliases : List (String × UnresolvedVersionSpec))
    (installed remote : List SemVer) :
    Nat → UnresolvedVersionSpec → Except ResolveError SemVer
  | 0, _ => .error .AliasCycle
  | _ + 1, .Version v => .ok v
  | fuel + 1, .Alias name =>
    match aliases.find? (fun kv => kv.1 == name) with
    | some kv => resolveWith aliases installed remote fuel kv.2
    | none => .error .VersionNotFound
  | _ + 1, .Req r =>
    match maxSatisfying installed r with
    | some v => .ok v
    | none =>
      match maxSatisfying remote r with
      | some v => .ok v
      | none => .error .VersionNotFound
  | _ + 1, .Latest =>
    match installed.max? with
    | some v => .ok v
    | none =>
      match remote.max? with
      | some v => .ok v
      | none => .error .VersionNotFound

/-- Resolution entry point: the fuel exceeds the number of aliases, so
only a genuine cycle can exhaust it. -/
def resolveSpec (aliases : List (String × UnresolvedVersionSpec))
    (installed remote : List SemVer) (spec : UnresolvedVersionSpec) :
    Except ResolveError SemVer :=
  resolveWith aliases installed remote (aliases.length + 1) spec

/-- One scope of the layered config: the `versions` table mapping a tool
id to its pinned spec.  The `Option` mirrors the optional table field
that `get_or_insert` defaults in `internal_pin`. -/
structure ProtoConfigDoc where
  versions : Option (List (String × UnresolvedVersionSpec))
deriving DecidableEq, Repr

/-- Key-replacing insertion into the versions table (the map insert of
the config document). -/
def insertPin (tbl : List (String × UnresolvedVersionSpec)) (id : String)
    (spec : UnresolvedVersionSpec) : List (String × UnresolvedVersionSpec) :=
  match tbl with
  | [] => [(id, spec)]
  | kv :: rest =>
    if kv.1 == id then (id, spec) :: rest else kv :: insertPin rest id spec

/-- Lookup in the versions table by exact tool id. -/
def lookupPin (tbl : List (String × UnresolvedVersionSpec)) (id : String) :
    Option UnresolvedVersionSpec :=
  match tbl.find? (fun kv => kv.1 == id) with
  | some kv => some kv.2
  | none => none

/-- The two persisted config documents, one per scope (spec 3: layered
config keyed by scope). -/
structure ConfigState where
  globalDoc : ProtoConfigDoc
  localDoc : ProtoConfigDoc
deriving DecidableEq, Repr

/-- Modelled from the spec: `ProtoConfig::update` (spec 4.6), whose code
is not among the studied sources.  It loads the document at the
requested scope, applies the pure mutation, writes the document back and
returns the written path.  `global = true` selects the global
`.prototools`, otherwise the local one (`get_config_dir`). -/
def ConfigState.update (st : ConfigState) (global : Bool)
    (f : ProtoConfigDoc → ProtoConfigDoc) : ConfigState × String :=
  if global then ({ st with globalDoc := f st.globalDoc }, "global/.prototools")
  else ({ st with localDoc := f st.localDoc }, "local/.prototools")

/-- The mutation applied by `internal_pin`: default the versions table if
missing and insert the pinned spec under the tool id. -/
def ProtoConfigDoc.pinVersion (doc : ProtoConfigDoc) (id : String)
    (spec : UnresolvedVersionSpec) : ProtoConfigDoc :=
  { doc with versions := some (insertPin (doc.versions.getD []) id spec) }

/-- Read the pin recorded for a tool id at one scope. -/
def ConfigState.lookupScope (st : ConfigState) (global : Bool) (id : String) :
    Option UnresolvedVersionSpec :=
  lookupPin ((if global then st.globalDoc else st.localDoc).versions.getD []) id

/-- Merged pin read per the layered precedence of spec 3: local
overrides global, a missing local entry falls through to global. -/
def ConfigState.getPin (st : ConfigState) (id : String) :
    Option UnresolvedVersionSpec :=
  match st.lookupScope false id with
  | some spec => some spec
  | none => st.lookupScope true id

/-- Host side effects the pin path can perform besides the config write. -/
inductive HostEffect where
  | SymlinkBins
deriving DecidableEq, Repr

/-- `internal_pin` (pin.rs lines 27-52): when both `global` and `link`
are set, symlink the executables of the pinned version; then update the
config document at the requested scope so that its versions table maps
the tool id to the given spec.  Returns the new config state together
with the host side effects performed. -/
def internal_pin (toolId : String) (spec : UnresolvedVersionSpec)
    (global link : Bool) (st : ConfigState) : ConfigState × List HostEffect :=
  let effects := if global && link then [HostEffect.SymlinkBins] else []
  let updated := st.update global (fun doc => doc.pinVersion toolId spec)
  (updated.1, effects)

/-- Arguments of the user-facing pin command (pin.rs lines 9-25). -/
structure PinArgs where
  id : String
  spec : UnresolvedVersionSpec
  global : Bool
  resolve : Bool
deriving DecidableEq, Repr

/-- The slice of a loaded `Tool` that the pin command consults when
resolving: its alias map, the versions installed in the manifest, and
the plugin-reported remote version list. -/
structure ToolResolveState where
  aliases : List (String × UnresolvedVersionSpec)
  installed : List SemVer
  remote : List SemVer
deriving Repr

/-- The `pin` command (pin.rs lines 54-72): with `resolve` set, the
supplied spec is first resolved and the resolved version is converted
back to an unresolved spec; otherwise the supplied spec is used as is.
Either way `internal_pin` is invoked with `link` hard-coded to `false`. -/
def pin (args : PinArgs) (tool : ToolResolveState) (st : ConfigState) :
    Except ResolveError (ConfigState × List HostEffect) :=
  if args.resolve then
    match resolveSpec tool.aliases tool.installed tool.remote args.spec with
    | .ok v => .ok (internal_pin args.id v.toUnresolvedSpec args.global false st)
    | .error e => .error e
  else
    .ok (internal_pin args.id args.spec args.global false st)

/-- One entry of the host-to-sandbox directory mapping table: the real
directory `real` is exposed under the stable virtual mount `mount`
(spec 4.1).  Paths are kept as component lists. -/
structure PathMapping where
  real : List String
  mount : String
deriving DecidableEq, Repr

/-- The slice of a loaded `Tool` that the test wrapper uses: the fixed
path mapping table established when the plugin is loaded, and the
canonical tool directory returned by `get_tool_dir`. -/
structure ToolPaths where
  mappings : List PathMapping
  tool_dir : List String
deriving DecidableEq, Repr

/-- Modelled from the spec: `Tool::to_virtual_path` (spec 4.1), whose
code is not among the studied sources.  A real path under a mapped
directory is rewritten to the stable mount name followed by the
remaining components; a path under no mapping is passed through
unchanged (the infallible form used by the wrapper call sites). -/
def ToolPaths.to_virtual_path (t : ToolPaths) (p : List String) : List String :=
  match t.mappings.find? (fun m => m.real.isPrefixOf p) with
  | some m => m.mount :: p.drop m.real.length
  | none => p

/-- `Tool::get_tool_dir`: the canonical directory of the tool. -/
def ToolPaths.get_tool_dir (t : ToolPaths) : List String := t.tool_dir

/-- `ToolContext`: the ephemeral per-call value threaded into every
context-bearing plugin invocation, carrying the sandbox-visible tool
directory (spec 3). -/
structure ToolContext where
  tool_dir : List String
  version : String
deriving DecidableEq, Repr

/-- `WasmTestWrapper::prepare_context` (wrapper.rs lines 140-151): when
the caller-supplied context has a tool directory with zero components,
substitute the canonical directory of the tool; either way the chosen
directory is routed through the path translator before the context is
passed on. -/
def prepare_context (t : ToolPaths) (context : ToolContext) : ToolContext :=
  let dir :=
    if context.tool_dir.length == 0 then t.get_tool_dir
    else context.tool_dir
  { context with tool_dir := t.to_virtual_path dir }

/-- Input of the `unpack_archive` plugin function (two path fields). -/
structure UnpackArchiveInput where
  input_file : List String
  output_dir : List String
deriving DecidableEq, Repr

/-- Input of the `verify_checksum` plugin function (two path fields). -/
structure VerifyChecksumInput where
  checksum_file : List String
  download_file : List String
deriving DecidableEq, Repr

/-- Input of the `native_install` plugin function (context-bearing). -/
structure NativeInstallInput where
  context : ToolContext
deriving DecidableEq, Repr

/-- `WasmTestWrapper::unpack_archive` (wrapper.rs lines 119-128): the
input value forwarded to the plugin invocation layer, with both path
fields translated. -/
def unpack_archive_sent (t : ToolPaths) (input : UnpackArchiveInput) :
    UnpackArchiveInput :=
  { input with
    input_file := t.to_virtual_path input.input_file
    output_dir := t.to_virtual_path input.output_dir }

/-- `WasmTestWrapper::verify_checksum` (wrapper.rs lines 130-138): the
input value forwarded to the plugin invocation layer, with both path
fields translated. -/
def verify_checksum_sent (t : ToolPaths) (input : VerifyChecksumInput) :
    VerifyChecksumInput :=
  { input with
    checksum_file := t.to_virtual_path input.checksum_file
    download_file := t.to_virtual_path input.download_file }

/-- `WasmTestWrapper::native_install` (wrapper.rs lines 38-45): the
input value forwarded to the plugin invocation layer, with its context
prepared. -/
def native_install_sent (t : ToolPaths) (input : NativeInstallInput) :
    NativeInstallInput :=
  { input with context := prepare_context t input.context }

/-- The typed failure conditions of one plugin invocation (spec 4.2 and
spec 7). -/
inductive CallFailure where
  | FunctionNotFound : String → CallFailure
  | EncodingError : CallFailure
  | PluginExecutionFailed : String → CallFailure
  | DecodingError : CallFailure
deriving DecidableEq, Repr

/-- Modelled from the spec: a loaded sandboxed plugin instance as seen
by the invocation layer (spec 4.2 and 9), whose code is not among the
studied sources.  It is a table of exported functions over serialized
byte values, plus the host-side codec for the typed input and output
values of one call shape.  A sandboxed function either returns output
bytes or traps with plugin-reported diagnostic text. -/
structure PluginInstance (α β : Type) where
  exports : String → Option (List Nat → Except String (List Nat))
  encode : α → Option (List Nat)
  decode : List Nat → Option β

/-- Modelled from the spec: `call_func_with` (spec 4.2), whose code is
not among the studied sources.  It dispatches one named function against
the loaded plugin: a missing export yields `FunctionNotFound`, an input
serialization failure yields `EncodingError`, a sandbox trap yields
`PluginExecutionFailed` carrying the diagnostic text, and an output
deserialization failure yields `DecodingError`.  The second component
counts how many times the sandboxed function was actually entered. -/
def call_func_with {α β : Type} (p : PluginInstance α β) (name : String)
    (input : α) : Except CallFailure β × Nat :=
  match p.exports name with
  | none => (.error (.FunctionNotFound name), 0)
  | some f =>
    match p.encode input with
    | none => (.error .EncodingError, 0)
    | some bytes =>
      match f bytes with
      | .error msg => (.error (.PluginExecutionFailed msg), 1)
      | .ok out =>
        match p.decode out with
        | none => (.error .DecodingError, 1)
        | some v => (.ok v, 1)

/-- Per-version metadata of the manifest: the install timestamp in
milliseconds since the epoch. -/
structure VersionMeta where
  installed_at : Nat
deriving DecidableEq, Repr

/-- `ToolManifest`: the installed version set (`installed_versions`,
iteration order arbitrary, embedded as a list) and the per-version
metadata map (`versions`). -/
structure ToolManifest where
  installed_versions : List SemVer
  versions : List (SemVer × VersionMeta)
deriving DecidableEq, Repr

/-- `manifest.versions.get(version)`: metadata lookup by exact version. -/
def ToolManifest.getMeta (m : ToolManifest) (v : SemVer) : Option VersionMeta :=
  match m.versions.find? (fun kv => kv.1 == v) with
  | some kv => some kv.2
  | none => none

/-- The `--versions` listing collects the installed set into a vector
and sorts it before rendering (list.rs lines 114-115). -/
def listInstalledVersions (m : ToolManifest) : List SemVer :=
  m.installed_versions.mergeSort (fun a b => a ≤ b)

/-- Marker-file contents by version directory: `none` when the
per-version last-used marker file does not exist. -/
abbrev MarkerFS := String → Option String

/-- Modelled from the spec: `ToolManifest::load_used_at` (spec 4.5),
whose code is not among the studied sources.  It reads the per-version
last-used marker file in the given version directory, returning absent
(rather than failing) when the marker does not exist, the recorded
timestamp when it does, and an error only when the marker exists but
cannot be parsed. -/
def load_used_at (fs : MarkerFS) (dir : String) : Except String (Option Nat) :=
  match fs dir with
  | none => .ok none
  | some contents =>
    match contents.toNat? with
    | some t => .ok (some t)
    | none => .error "unable to parse the last-used marker"

/-- The cast `(millis / 1000) as i64`: keep the low 64 bits and
reinterpret them as a signed value. -/
def toI64 (n : Nat) : Int :=
  let m : Nat := n % (2 ^ 64)
  if m < 2 ^ 63 then (m : Int) else (m : Int) - 2 ^ 64

/-- Earliest second representable by the chrono date type used in
`create_datetime`. -/
def chronoMinSecs : Int := -8334601228800

/-- Latest second representable by the chrono date type used in
`create_datetime`. -/
def chronoMaxSecs : Int := 8210266876799

/-- `create_datetime` (list.rs lines 170-173): split epoch milliseconds
into seconds (cast to `i64`) and nanoseconds and build a date;
`DateTime::from_timestamp` yields `None` outside the representable
range.  The date value is kept as its second count. -/
def create_datetime (millis : Nat) : Option Int :=
  let secs := toI64 (millis / 1000)
  if chronoMinSecs ≤ secs ∧ secs ≤ chronoMaxSecs then some secs else none

/-- Console styling applied to the version column of the listing:
`color::invalid` marks the pinned default version, `color::hash` every
other version (list.rs lines 149-154). -/
inductive Styled where
  | invalid : String → Styled
  | hash : String → Styled
deriving DecidableEq, Repr

/-- `Vec::join(", ")` over the collected comment fragments. -/
def joinComments : List String → String
  | [] => ""
  | [c] => c
  | c :: rest => c ++ ", " ++ joinComments rest

/-- The comment fragments and default-version flag computed for one
installed version of the `--versions` listing (list.rs lines 120-147):
`fmtDate` renders a date the way `format("%x")` does, and `defaultSpec`
is the pin the merged config records for the tool id.  An install date
comment is pushed when metadata exists and the timestamp is
representable; a last-used comment is pushed only when the marker read
succeeds with a present, representable timestamp; the default-version
comment is pushed when the pinned spec equals the exact re-render of
this version. -/
def versionComments (fmtDate : Int → String) (fs : MarkerFS)
    (m : ToolManifest) (inventoryDir : String)
    (defaultSpec : Option UnresolvedVersionSpec) (version : SemVer) :
    List String × Bool :=
  let metaComments :=
    match m.getMeta version with
    | some meta =>
      (match create_datetime meta.installed_at with
       | some d => ["installed " ++ fmtDate d]
       | none => []) ++
      (match load_used_at fs (inventoryDir ++ "/" ++ version.render) with
       | .ok (some lastUsed) =>
         match create_datetime lastUsed with
         | some d => ["last used " ++ fmtDate d]
         | none => []
       | _ => [])
    | none => []
  let isDefault :=
    match defaultSpec with
    | some dv => decide (dv = version.toUnresolvedSpec)
    | none => false
  (if isDefault then metaComments ++ ["default version"] else metaComments,
   isDefault)

/-- One rendered row of the `--versions` table: the styled version key
(`invalid` when the config pins this version as default, `hash`
otherwise) and the joined comment string (list.rs lines 149-156). -/
def versionEntry (fmtDate : Int → String) (fs : MarkerFS)
    (m : ToolManifest) (inventoryDir : String)
    (defaultSpec : Option UnresolvedVersionSpec) (version : SemVer) :
    Styled × String :=
  let vc := versionComments fmtDate fs m inventoryDir defaultSpec version
  (if vc.2 then Styled.invalid version.render else Styled.hash version.render,
   joinComments vc.1)

/-- Sandboxed plugin instance used to exercise the invocation layer
failure cases: it exports only `load_versions`, whose execution traps
with diagnostic text. -/
def samplePlugin : PluginInstance Nat Nat where
  exports := fun n =>
    if n = "load_versions" then some (fun _ => .error "trap") else none
  encode := fun a => some [a]
  decode := fun l => l.head?

/-! ### Helper lemmas -/

theorem to_virtual_path_ne_nil (t : ToolPaths) (p : List String) (hp : p ≠ []) :
    t.to_virtual_path p ≠ [] := by
  unfold ToolPaths.to_virtual_path
  split
  · simp
  · exact hp

theorem prepare_context_tool_dir_eq (t : ToolPaths) (ctx : ToolContext) :
    (prepare_context t ctx).tool_dir =
      t.to_virtual_path
        (if ctx.tool_dir.length == 0 then t.get_tool_dir else ctx.tool_dir) :=
  rfl

theorem lookupPin_insertPin (tbl : List (String × UnresolvedVersionSpec))
    (id : String) (spec : UnresolvedVersionSpec) :
    lookupPin (insertPin tbl id spec) id = some spec := by
  induction tbl with
  | nil => simp [insertPin, lookupPin, List.find?]
  | cons kv rest ih =>
    by_cases hk : kv.1 == id
    · simp [insertPin, hk, lookupPin, List.find?]
    · simpa [insertPin, hk, lookupPin, List.find?] using ih

theorem lookupScope_internal_pin (id : String) (spec : UnresolvedVersionSpec)
    (global link : Bool) (st : ConfigState) :
    ((internal_pin id spec global link st).1).lookupScope global id = some spec := by
  cases global <;>
    simp [internal_pin, ConfigState.update, ConfigState.lookupScope,
      ProtoConfigDoc.pinVersion, lookupPin_insertPin]

theorem maxSatisfying_spec {l : List SemVer} {r : VersionReq} {v : SemVer}
    (h : maxSatisfying l r = some v) :
    v ∈ l ∧ r.matches v = true ∧ ∀ w ∈ l, r.matches w = true → w ≤ v := by
  unfold maxSatisfying at h
  rw [List.max?_eq_some_iff le_refl max_choice (fun _ _ _ => max_le_iff)] at h
  obtain ⟨hmem, hle⟩ := h
  rw [List.mem_filter] at hmem
  refine ⟨hmem.1, hmem.2, ?_⟩
  intro w hw hmatch
  exact hle w (List.mem_filter.mpr ⟨hw, hmatch⟩)

theorem maxSatisfying_none {l : List SemVer} {r : VersionReq}
    (h : maxSatisfying l r = none) : ∀ w ∈ l, r.matches w ≠ true := by
  unfold maxSatisfying at h
  rw [List.max?_eq_none_iff] at h
  intro w hw hmatch
  have hmm : w ∈ l.filter (fun u => r.matches u) := List.mem_filter.mpr ⟨hw, hmatch⟩
  rw [h] at hmm
  simp at hmm

theorem resolveSpec_req {aliases : List (String × UnresolvedVersionSpec)}
    {installed remote : List SemVer} {r : VersionReq} {v : SemVer}
    (h : resolveSpec aliases installed remote (UnresolvedVersionSpec.Req r) = .ok v) :
    r.matches v = true ∧ (v ∈ installed ∨ v ∈ remote) ∧
      ∀ w ∈ installed, r.matches w = true → w ≤ v := by
  unfold resolveSpec resolveWith at h
  cases hi : maxSatisfying installed r with
  | some u =>
    rw [hi] at h
    injection h with h
    subst h
    obtain ⟨hmem, hmatch, hmax⟩ := maxSatisfying_spec hi
    exact ⟨hmatch, Or.inl hmem, hmax⟩
  | none =>
    rw [hi] at h
    cases hrem : maxSatisfying remote r with
    | some u =>
      rw [hrem] at h
      injection h with h
      subst h
      obtain ⟨hmem, hmatch, _⟩ := maxSatisfying_spec hrem
      refine ⟨hmatch, Or.inr hmem, ?_⟩
      intro w hw hmw
      exact absurd hmw (maxSatisfying_none hi w hw)
    | none =>
      rw [hrem] at h
      exact absurd h (by simp)

/-! ### Claims -/

/-- Claim C1: for a context-bearing invocation prepared by the test
wrapper, an empty caller-supplied tool directory is replaced by the
canonical directory of the tool before the context reaches the sandbox,
and the prepared context never carries an empty tool directory (given
that the canonical directory itself is non-empty). -/
theorem prepared_context_tool_dir_not_empty (t : ToolPaths) (ctx : ToolContext)
    (h : t.get_tool_dir ≠ []) :
    (ctx.tool_dir = [] →
      (prepare_context t ctx).tool_dir = t.to_virtual_path t.get_tool_dir) ∧
    (prepare_context t ctx).tool_dir ≠ [] := by
  constructor
  · intro hc
    rw [prepare_context_tool_dir_eq, hc]
    simp
  · rw [prepare_context_tool_dir_eq]
    apply to_virtual_path_ne_nil
    split
    · exact h
    · rename_i hcond
      intro hnil
      simp [hnil] at hcond

/-- Concrete instance of claim C1 at an empty caller-supplied tool
directory. -/
theorem prepared_context_tool_dir_not_empty_witness :
    ((⟨[], "1.0.0"⟩ : ToolContext).tool_dir = [] →
      (prepare_context ⟨[⟨["root", "tools", "node"], "tool"⟩], ["root", "tools", "node"]⟩
          ⟨[], "1.0.0"⟩).tool_dir =
        ToolPaths.to_virtual_path
          ⟨[⟨["root", "tools", "node"], "tool"⟩], ["root", "tools", "node"]⟩
          (ToolPaths.get_tool_dir
            ⟨[⟨["root", "tools", "node"], "tool"⟩], ["root", "tools", "node"]⟩)) ∧
    (prepare_context ⟨[⟨["root", "tools", "node"], "tool"⟩], ["root", "tools", "node"]⟩
        ⟨[], "1.0.0"⟩).tool_dir ≠ [] :=
  prepared_context_tool_dir_not_empty
    ⟨[⟨["root", "tools", "node"], "tool"⟩], ["root", "tools", "node"]⟩
    ⟨[], "1.0.0"⟩ (by decide)

/-- Claim C2: every path-bearing field of the wrapper inputs is routed
through the path translator before the value crosses into the plugin
invocation layer: both `unpack_archive` paths, both `verify_checksum`
paths, and the tool directory of every prepared context. -/
theorem path_fields_translated_before_call (t : ToolPaths)
    (u : UnpackArchiveInput) (v : VerifyChecksumInput) (i : NativeInstallInput) :
    (unpack_archive_sent t u).input_file = t.to_virtual_path u.input_file ∧
    (unpack_archive_sent t u).output_dir = t.to_virtual_path u.output_dir ∧
    (verify_checksum_sent t v).checksum_file = t.to_virtual_path v.checksum_file ∧
    (verify_checksum_sent t v).download_file = t.to_virtual_path v.download_file ∧
    ∃ dir, (native_install_sent t i).context.tool_dir = t.to_virtual_path dir :=
  ⟨rfl, rfl, rfl, rfl,
    ⟨if i.context.tool_dir.length == 0 then t.get_tool_dir else i.context.tool_dir,
      rfl⟩⟩

/-- Claim C3: a failed plugin invocation is never retried (the sandboxed
function is entered at most once per call) and every failure condition
propagates to the caller as the matching typed failure value, which the
caller can branch on. -/
theorem call_failure_typed_and_not_retried {α β : Type}
    (p : PluginInstance α β) (name : String) (input : α) :
    (call_func_with p name input).2 ≤ 1 ∧
    (p.exports name = none →
      (call_func_with p name input).1 = .error (.FunctionNotFound name)) ∧
    (∀ f, p.exports name = some f → p.encode input = none →
      (call_func_with p name input).1 = .error .EncodingError) ∧
    (∀ f bytes msg, p.exports name = some f → p.encode input = some bytes →
      f bytes = .error msg →
      (call_func_with p name input).1 = .error (.PluginExecutionFailed msg)) ∧
    (∀ f bytes out, p.exports name = some f → p.encode input = some bytes →
      f bytes = .ok out → p.decode out = none →
      (call_func_with p name input).1 = .error .DecodingError) := by
  refine ⟨?_, ?_, ?_, ?_, ?_⟩
  · cases hx : p.exports name with
    | none => simp [call_func_with, hx]
    | some f =>
      cases he : p.encode input with
      | none => simp [call_func_with, hx, he]
      | some bytes =>
        cases hf : f bytes with
        | error msg => simp [call_func_with, hx, he, hf]
        | ok out =>
          cases hd : p.decode out with
          | none => simp [call_func_with, hx, he, hf, hd]
          | some w => simp [call_func_with, hx, he, hf, hd]
  · intro hx
    simp [call_func_with, hx]
  · intro f hx he
    simp [call_func_with, hx, he]
  · intro f bytes msg hx he hf
    simp [call_func_with, hx, he, hf]
  · intro f bytes out hx he hf hd
    simp [call_func_with, hx, he, hf, hd]

/-- Concrete instance of claim C3: calling a function the sample plugin
does not export yields the typed `FunctionNotFound` failure without
entering the sandbox, and a trapping export yields the typed
`PluginExecutionFailed` failure carrying the diagnostic text. -/
theorem call_failure_typed_and_not_retried_witness :
    (call_func_with samplePlugin "native_install" 0).2 ≤ 1 ∧
    (call_func_with samplePlugin "native_install" 0).1 =
      .error (.FunctionNotFound "native_install") ∧
    (call_func_with samplePlugin "load_versions" 7).1 =
      .error (.PluginExecutionFailed "trap") :=
  ⟨(call_failure_typed_and_not_retried samplePlugin "native_install" 0).1,
   (call_failure_typed_and_not_retried samplePlugin "native_install" 0).2.1 rfl,
   (call_failure_typed_and_not_retried samplePlugin "load_versions" 7).2.2.2.1
     (fun _ => .error "trap") [7] "trap" rfl rfl rfl⟩

/-- Claim C4: with resolve disabled the pin command persists exactly the
caller-supplied unresolved spec under the tool id at the chosen scope;
with resolve enabled it persists the resolved version rendered back to
an unresolved spec, and resolving a range picks the highest installed
match (consulting the remote list only when no installed version
matches). -/
theorem pin_persists_supplied_or_resolved (args : PinArgs)
    (tool : ToolResolveState) (st : ConfigState) :
    (args.resolve = false →
      ∃ out, pin args tool st = .ok out ∧
        out.1.lookupScope args.global args.id = some args.spec) ∧
    (∀ v, args.resolve = true →
      resolveSpec tool.aliases tool.installed tool.remote args.spec = .ok v →
      ∃ out, pin args tool st = .ok out ∧
        out.1.lookupScope args.global args.id = some v.toUnresolvedSpec) ∧
    (∀ r v, resolveSpec tool.aliases tool.installed tool.remote
        (UnresolvedVersionSpec.Req r) = .ok v →
      r.matches v = true ∧ (v ∈ tool.installed ∨ v ∈ tool.remote) ∧
        ∀ w ∈ tool.installed, r.matches w = true → w ≤ v) := by
  refine ⟨?_, ?_, ?_⟩
  · intro hres
    refine ⟨internal_pin args.id args.spec args.global false st, ?_, ?_⟩
    · simp [pin, hres]
    · exact lookupScope_internal_pin args.id args.spec args.global false st
  · intro v hres hok
    refine ⟨internal_pin args.id v.toUnresolvedSpec args.global false st, ?_, ?_⟩
    · simp [pin, hres, hok]
    · exact lookupScope_internal_pin args.id v.toUnresolvedSpec args.global false st
  · intro r v h
    exact resolveSpec_req h

/-- Concrete instance of claim C4: pinning `node` to the range `18` with
resolve disabled persists the range itself; with resolve enabled and
`18.4.0` and `18.19.0` installed it persists the exact spec `18.19.0`. -/
theorem pin_persists_supplied_or_resolved_witness :
    (∃ out,
        pin ⟨"node", .Req ⟨18, none, none⟩, false, false⟩
            ⟨[], [⟨18, 4, 0⟩, ⟨18, 19, 0⟩], []⟩ ⟨⟨none⟩, ⟨none⟩⟩ = .ok out ∧
          out.1.lookupScope false "node" =
            some (UnresolvedVersionSpec.Req ⟨18, none, none⟩)) ∧
    (∃ out,
        pin ⟨"node", .Req ⟨18, none, none⟩, false, true⟩
            ⟨[], [⟨18, 4, 0⟩, ⟨18, 19, 0⟩], []⟩ ⟨⟨none⟩, ⟨none⟩⟩ = .ok out ∧
          out.1.lookupScope false "node" =
            some (SemVer.toUnresolvedSpec ⟨18, 19, 0⟩)) :=
  ⟨(pin_persists_supplied_or_resolved ⟨"node", .Req ⟨18, none, none⟩, false, false⟩
      ⟨[], [⟨18, 4, 0⟩, ⟨18, 19, 0⟩], []⟩ ⟨⟨none⟩, ⟨none⟩⟩).1 rfl,
   (pin_persists_supplied_or_resolved ⟨"node", .Req ⟨18, none, none⟩, false, true⟩
      ⟨[], [⟨18, 4, 0⟩, ⟨18, 19, 0⟩], []⟩ ⟨⟨none⟩, ⟨none⟩⟩).2.1 ⟨18, 19, 0⟩ rfl rfl⟩

/-- Claim C5: writing a pin at one scope leaves the document of the
other scope untouched, and a pin read that finds no local entry falls
through to the global entry. -/
theorem pin_scope_frame (st : ConfigState) (id : String)
    (spec : UnresolvedVersionSpec) (link : Bool) :
    (internal_pin id spec false link st).1.globalDoc = st.globalDoc ∧
    (internal_pin id spec true link st).1.localDoc = st.localDoc ∧
    (st.lookupScope false id = none → st.getPin id = st.lookupScope true id) := by
  refine ⟨rfl, rfl, ?_⟩
  intro h
  simp [ConfigState.getPin, h]

/-- Concrete instance of claim C5: a local pin leaves a populated global
document intact, and with no local entry the merged read returns the
global pin. -/
theorem pin_scope_frame_witness :
    (internal_pin "node" UnresolvedVersionSpec.Latest false true
        ⟨⟨some [("node", UnresolvedVersionSpec.Latest)]⟩, ⟨none⟩⟩).1.globalDoc =
      ⟨some [("node", UnresolvedVersionSpec.Latest)]⟩ ∧
    (internal_pin "node" UnresolvedVersionSpec.Latest true true
        ⟨⟨some [("node", UnresolvedVersionSpec.Latest)]⟩, ⟨none⟩⟩).1.localDoc =
      ⟨none⟩ ∧
    ConfigState.getPin ⟨⟨some [("node", UnresolvedVersionSpec.Latest)]⟩, ⟨none⟩⟩ "node" =
      ConfigState.lookupScope
        ⟨⟨some [("node", UnresolvedVersionSpec.Latest)]⟩, ⟨none⟩⟩ true "node" :=
  ⟨(pin_scope_frame ⟨⟨some [("node", UnresolvedVersionSpec.Latest)]⟩, ⟨none⟩⟩
      "node" UnresolvedVersionSpec.Latest true).1,
   (pin_scope_frame ⟨⟨some [("node", UnresolvedVersionSpec.Latest)]⟩, ⟨none⟩⟩
      "node" UnresolvedVersionSpec.Latest true).2.1,
   (pin_scope_frame ⟨⟨some [("node", UnresolvedVersionSpec.Latest)]⟩, ⟨none⟩⟩
      "node" UnresolvedVersionSpec.Latest true).2.2 rfl⟩

/-- Claim C6: the symlink side effect of pinning occurs exactly when the
caller passes `link = true` and the pin targets the global scope; a pin
with `link = false`, or at local scope, performs no symlink creation. -/
theorem symlink_iff_global_and_link (id : String) (spec : UnresolvedVersionSpec)
    (global link : Bool) (st : ConfigState) :
    HostEffect.SymlinkBins ∈ (internal_pin id spec global link st).2 ↔
      global = true ∧ link = true := by
  cases global <;> cases link <;> simp [internal_pin]

/-- Claim C7: the listing of installed versions is ascending in the
total version order and is a permutation of the underlying installed
set; manifests whose installed sets are permutations of one another
produce the same listing, so the storage order is irrelevant. -/
theorem list_versions_sorted_canonical (m m' : ToolManifest)
    (h : m.installed_versions.Perm m'.installed_versions) :
    List.Sorted (· ≤ ·) (listInstalledVersions m) ∧
    (listInstalledVersions m).Perm m.installed_versions ∧
    listInstalledVersions m = listInstalledVersions m' := by
  have hsorted : ∀ mm : ToolManifest,
      List.Sorted (· ≤ ·) (listInstalledVersions mm) := by
    intro mm
    have h2 := @List.sorted_mergeSort SemVer
      (fun a b : SemVer => decide (a ≤ b))
      (fun a b c hab hbc => by
        simp only [decide_eq_true_eq] at *
        exact le_trans hab hbc)
      (fun a b => by
        simp only [Bool.or_eq_true, decide_eq_true_eq]
        exact le_total a b)
      mm.installed_versions
    unfold listInstalledVersions
    refine List.Pairwise.imp ?_ h2
    intro a b hab
    simpa using hab
  have hperm : ∀ mm : ToolManifest,
      (listInstalledVersions mm).Perm mm.installed_versions :=
    fun mm => List.mergeSort_perm mm.installed_versions _
  have hanti : IsAntisymm SemVer (· ≤ ·) := ⟨fun _ _ hab hba => le_antisymm hab hba⟩
  refine ⟨hsorted m, hperm m, ?_⟩
  exact List.eq_of_perm_of_sorted (((hperm m).trans h).trans (hperm m').symm)
    (hsorted m) (hsorted m')

/-- Concrete instance of claim C7: two manifests storing the same three
versions in different orders list them identically and ascending. -/
theorem list_versions_sorted_canonical_witness :
    List.Sorted (· ≤ ·)
      (listInstalledVersions ⟨[⟨2, 0, 0⟩, ⟨1, 5, 0⟩, ⟨1, 10, 0⟩], []⟩) ∧
    (listInstalledVersions ⟨[⟨2, 0, 0⟩, ⟨1, 5, 0⟩, ⟨1, 10, 0⟩], []⟩).Perm
      [⟨2, 0, 0⟩, ⟨1, 5, 0⟩, ⟨1, 10, 0⟩] ∧
    listInstalledVersions ⟨[⟨2, 0, 0⟩, ⟨1, 5, 0⟩, ⟨1, 10, 0⟩], []⟩ =
      listInstalledVersions ⟨[⟨1, 10, 0⟩, ⟨2, 0, 0⟩, ⟨1, 5, 0⟩], []⟩ :=
  list_versions_sorted_canonical ⟨[⟨2, 0, 0⟩, ⟨1, 5, 0⟩, ⟨1, 10, 0⟩], []⟩
    ⟨[⟨1, 10, 0⟩, ⟨2, 0, 0⟩, ⟨1, 5, 0⟩], []⟩ (by decide)

/-- Claim C8: when the per-version last-used marker file does not exist,
`load_used_at` returns absent rather than failing, and the listing
comments for that version contain no last-used fragment — each comment
is either an install-date fragment or the default-version note, never a
zero or default last-used timestamp. -/
theorem absent_marker_no_last_used (fmtDate : Int → String) (fs : MarkerFS)
    (m : ToolManifest) (inventoryDir : String)
    (defaultSpec : Option UnresolvedVersionSpec) (version : SemVer)
    (h : fs (inventoryDir ++ "/" ++ version.render) = none) :
    load_used_at fs (inventoryDir ++ "/" ++ version.render) = .ok none ∧
    ∀ c ∈ (versionComments fmtDate fs m inventoryDir defaultSpec version).1,
      (∃ d, c = "installed " ++ fmtDate d) ∨ c = "default version" := by
  have hload : load_used_at fs (inventoryDir ++ "/" ++ version.render) = .ok none := by
    simp [load_used_at, h]
  refine ⟨hload, ?_⟩
  intro c hc
  cases hm : m.getMeta version with
  | none =>
    simp only [versionComments, hm] at hc
    split at hc
    · simp at hc
      exact Or.inr hc
    · simp at hc
  | some meta =>
    cases hd : create_datetime meta.installed_at with
    | none =>
      simp only [versionComments, hm, hd, hload] at hc
      split at hc
      · simp at hc
        exact Or.inr hc
      · simp at hc
    | some d =>
      simp only [versionComments, hm, hd, hload] at hc
      split at hc
      · simp at hc
        rcases hc with hc | hc
        · exact Or.inl ⟨d, hc⟩
        · exact Or.inr hc
      · simp at hc
        exact Or.inl ⟨d, hc⟩

/-- Concrete instance of claim C8: a version installed at a recorded
time whose marker file is absent produces a read of `ok none` and only
an install-date comment plus the default-version note. -/
theorem absent_marker_no_last_used_witness :
    load_used_at (fun _ => none) ("inv" ++ "/" ++ SemVer.render ⟨20, 1, 0⟩) = .ok none ∧
    ∀ c ∈ (versionComments (fun _ => "11/14/23") (fun _ => none)
        ⟨[⟨20, 1, 0⟩], [(⟨20, 1, 0⟩, ⟨1700000000000⟩)]⟩ "inv"
        (some (SemVer.toUnresolvedSpec ⟨20, 1, 0⟩)) ⟨20, 1, 0⟩).1,
      (∃ d, c = "installed " ++ (fun _ : Int => "11/14/23") d) ∨ c = "default version" :=
  absent_marker_no_last_used (fun _ => "11/14/23") (fun _ => none)
    ⟨[⟨20, 1, 0⟩], [(⟨20, 1, 0⟩, ⟨1700000000000⟩)]⟩ "inv"
    (some (SemVer.toUnresolvedSpec ⟨20, 1, 0⟩)) ⟨20, 1, 0⟩ rfl

/-- Claim C9: a version pinned as default, with a recorded install time
and no last-used marker, is rendered with the pinned visual marker and
the comment `installed <date>, default version`; a different installed
version is rendered with the plain marker and only its install date. -/
theorem default_version_entry_annotated (fmtDate : Int → String) (fs : MarkerFS)
    (m : ToolManifest) (inventoryDir : String) (v w : SemVer)
    (tv tw : Nat) (d d' : Int)
    (hv : m.getMeta v = some ⟨tv⟩)
    (hd : create_datetime tv = some d)
    (hfv : fs (inventoryDir ++ "/" ++ v.render) = none)
    (hw : m.getMeta w = some ⟨tw⟩)
    (hd' : create_datetime tw = some d')
    (hfw : fs (inventoryDir ++ "/" ++ w.render) = none)
    (hne : w ≠ v) :
    versionEntry fmtDate fs m inventoryDir (some v.toUnresolvedSpec) v =
      (Styled.invalid v.render, "installed " ++ fmtDate d ++ ", default version") ∧
    versionEntry fmtDate fs m inventoryDir (some v.toUnresolvedSpec) w =
      (Styled.hash w.render, "installed " ++ fmtDate d') := by
  have hloadv : load_used_at fs (inventoryDir ++ "/" ++ v.render) = .ok none := by
    simp [load_used_at, hfv]
  have hloadw : load_used_at fs (inventoryDir ++ "/" ++ w.render) = .ok none := by
    simp [load_used_at, hfw]
  have hloadv' : load_used_at fs (inventoryDir ++ ("/" ++ v.render)) = .ok none := by
    rw [← String.append_assoc]
    exact hloadv
  have hloadw' : load_used_at fs (inventoryDir ++ ("/" ++ w.render)) = .ok none := by
    rw [← String.append_assoc]
    exact hloadw
  have hne' : v ≠ w := fun hvw => hne hvw.symm
  constructor
  · simp [versionEntry, versionComments, hv, hd, hloadv, hloadv',
      SemVer.toUnresolvedSpec, joinComments, String.append_assoc]
  · simp [versionEntry, versionComments, hw, hd', hloadw, hloadw',
      SemVer.toUnresolvedSpec, joinComments, hne']

/-- Concrete instance of claim C9 with `20.1.0` pinned as default and
`19.0.0` as the other installed version. -/
theorem default_version_entry_annotated_witness :
    versionEntry (fun _ => "11/14/23") (fun _ => none)
        ⟨[⟨20, 1, 0⟩, ⟨19, 0, 0⟩],
          [(⟨20, 1, 0⟩, ⟨1700000000000⟩), (⟨19, 0, 0⟩, ⟨1600000000000⟩)]⟩ "inv"
        (some (SemVer.toUnresolvedSpec ⟨20, 1, 0⟩)) ⟨20, 1, 0⟩ =
      (Styled.invalid (SemVer.render ⟨20, 1, 0⟩),
        "installed " ++ (fun _ : Int => "11/14/23") 1700000000 ++ ", default version") ∧
    versionEntry (fun _ => "11/14/23") (fun _ => none)
        ⟨[⟨20, 1, 0⟩, ⟨19, 0, 0⟩],
          [(⟨20, 1, 0⟩, ⟨1700000000000⟩), (⟨19, 0, 0⟩, ⟨1600000000000⟩)]⟩ "inv"
        (some (SemVer.toUnresolvedSpec ⟨20, 1, 0⟩)) ⟨19, 0, 0⟩ =
      (Styled.hash (SemVer.render ⟨19, 0, 0⟩),
        "installed " ++ (fun _ : Int => "11/14/23") 1600000000) :=
  default_version_entry_annotated (fun _ => "11/14/23") (fun _ => none)
    ⟨[⟨20, 1, 0⟩, ⟨19, 0, 0⟩],
      [(⟨20, 1, 0⟩, ⟨1700000000000⟩), (⟨19, 0, 0⟩, ⟨1600000000000⟩)]⟩ "inv"
    ⟨20, 1, 0⟩ ⟨19, 0, 0⟩ 1700000000000 1600000000000 1700000000 1600000000
    rfl (by decide) rfl rfl (by decide) rfl (by decide)

/-- Claim C10: the user-facing pin command hard-codes `link = false`
when it invokes `internal_pin`, so a successful pin performs no symlink
creation even when the global flag is set. -/
theorem pin_command_never_symlinks (args : PinArgs) (tool : ToolResolveState)
    (st : ConfigState) (out : ConfigState × List HostEffect)
    (h : pin args tool st = .ok out) :
    HostEffect.SymlinkBins ∉ out.2 := by
  unfold pin at h
  split at h
  · split at h
    · injection h with h
      subst h
      simp [internal_pin]
    · exact absurd h (by simp)
  · injection h with h
    subst h
    simp [internal_pin]

/-- Concrete instance of claim C10: pinning at global scope through the
command performs no symlink creation. -/
theorem pin_command_never_symlinks_witness :
    HostEffect.SymlinkBins ∉
      (internal_pin "node" (UnresolvedVersionSpec.Req ⟨18, none, none⟩) true false
        ⟨⟨none⟩, ⟨none⟩⟩).2 :=
  pin_command_never_symlinks ⟨"node", .Req ⟨18, none, none⟩, true, false⟩
    ⟨[], [], []⟩ ⟨⟨none⟩, ⟨none⟩⟩
    (internal_pin "node" (UnresolvedVersionSpec.Req ⟨18, none, none⟩) true false
      ⟨⟨none⟩, ⟨none⟩⟩) rfl

end Proto
